import Mathlib

/-!
Verification of the control-flow lint rules of `deno_lint`
(`src/rules/no_cond_assign.rs`, `src/rules/no_fallthrough.rs`,
`src/rules/no_unreachable.rs`) against their natural-language
specification.

The syntax tree is a shallow embedding of the `swc_ecma_ast` node shapes
the three rules inspect.  Spans are modelled as `Nat` identifiers: the
rules only copy spans into diagnostics, never compute with them.
Operand expressions of `return`/`throw`/`break`/`continue`, the
discriminant of a `switch`, and the sub-expressions of an assignment are
elided because no rule ever reads them; an `other` variant stands for
every statement or expression shape the rules do not pattern-match.
-/

/-- Expressions, as matched by `no_cond_assign`: an assignment
(`Expr::Assign`, carrying its span), a parenthesised expression
(`Expr::Paren`, carrying its span and inner expression), and every other
expression shape. -/
inductive LintExpr where
  | assign : Nat → LintExpr
  | paren : Nat → LintExpr → LintExpr
  | other : Nat → LintExpr
deriving DecidableEq

/-- The `init` clause of a `for` statement (`VarDeclOrExpr`). -/
inductive ForInit where
  | varDecl : Nat → ForInit
  | ofExpr : LintExpr → ForInit
deriving DecidableEq

mutual
/-- Statements (`swc_ecma_ast::Stmt`).  Every constructor's first field
is the node's span.  `ret`/`brk`/`cont`/`throwStmt` are
`Return`/`Break`/`Continue`/`Throw`; `decl` is `Stmt::Decl`;
`exprStmt` is an expression statement; `other` is every remaining
statement shape. -/
inductive LintStmt where
  | ret : Nat → LintStmt
  | brk : Nat → LintStmt
  | cont : Nat → LintStmt
  | throwStmt : Nat → LintStmt
  | decl : Nat → LintStmt
  | ifStmt : Nat → LintExpr → LintStmt → Option LintStmt → LintStmt
  | whileStmt : Nat → LintExpr → LintStmt → LintStmt
  | doWhile : Nat → LintStmt → LintExpr → LintStmt
  | forStmt : Nat → Option ForInit → Option LintExpr → Option LintExpr → LintStmt → LintStmt
  | block : Nat → List LintStmt → LintStmt
  | switch : Nat → List SwitchCase → LintStmt
  | exprStmt : Nat → LintExpr → LintStmt
  | other : Nat → LintStmt

/-- A `swc_ecma_ast::SwitchCase`: its span, optional test expression and
consequent statement list (`cons`). -/
inductive SwitchCase where
  | mk : Nat → Option LintExpr → List LintStmt → SwitchCase
end

/-- The span of a statement (`Spanned::span`). -/
def LintStmt.span : LintStmt → Nat
  | .ret s => s
  | .brk s => s
  | .cont s => s
  | .throwStmt s => s
  | .decl s => s
  | .ifStmt s _ _ _ => s
  | .whileStmt s _ _ => s
  | .doWhile s _ _ => s
  | .forStmt s _ _ _ _ => s
  | .block s _ => s
  | .switch s _ => s
  | .exprStmt s _ => s
  | .other s => s

/-- The span field of a switch case. -/
def SwitchCase.span : SwitchCase → Nat
  | .mk s _ _ => s

/-- The `cons` field (consequent statement list) of a switch case. -/
def SwitchCase.cons : SwitchCase → List LintStmt
  | .mk _ _ c => c

/-- A lint finding as recorded by `Context::add_diagnostic`. -/
structure Diagnostic where
  span : Nat
  code : String
  message : String
deriving DecidableEq

namespace NoCondAssign

/-- `NoCondAssignVisitor::add_diagnostic`. -/
def add_diagnostic (span : Nat) : Diagnostic :=
  ⟨span, "noCondAssign",
    "Expected a conditional expression and instead saw an assignment"⟩

/-- `NoCondAssignVisitor::check_paren_expr`: a `ParenExpr` is its span
plus its inner expression; the match is on the inner expression
(`paren_expr.expr.as_ref()`). -/
def check_paren_expr (_span : Nat) (inner : LintExpr) : List Diagnostic :=
  match inner with
  | .assign s => [add_diagnostic s]
  | .paren s2 inner2 => check_paren_expr s2 inner2
  | _ => []

/-- `NoCondAssignVisitor::check_test_expr`. -/
def check_test_expr : LintExpr → List Diagnostic
  | .assign s => [add_diagnostic s]
  | .paren s inner => check_paren_expr s inner
  | _ => []

/-- `NoCondAssignVisitor::visit_stmt`: the diagnostics this visitor
records when called on one statement. -/
def visit_stmt : LintStmt → List Diagnostic
  | .ifStmt _ test _ _ => check_test_expr test
  | .whileStmt _ test _ => check_test_expr test
  | .doWhile _ _ test => check_test_expr test
  | .forStmt _ _ (some test) _ _ => check_test_expr test
  | .forStmt _ _ none _ _ => []
  | _ => []

end NoCondAssign

namespace NoFallthrough

/-- `no_fallthrough.rs`'s `is_control_flow_stmt`. -/
def is_control_flow_stmt : LintStmt → Bool
  | .ret _ | .brk _ | .cont _ | .throwStmt _ => true
  | _ => false

/-- `NoFallthroughVisitor::visit_switch_stmt` on `switch.cases`.
The source builds a peekable iterator and writes
`for case in &iter.next()`, which iterates over an `Option<&SwitchCase>`
— it yields at most the first case, and each `continue` therefore ends
the whole loop.  So: only the first case is inspected; if its `cons` is
empty, or any of its `cons` statements is a control-flow statement,
nothing is recorded; otherwise, if a second case exists (`iter.peek()`),
one diagnostic is recorded at that second case's span. -/
def visit_switch_stmt (cases : List SwitchCase) : List Diagnostic :=
  match cases with
  | [] => []
  | c :: rest =>
    if c.cons.isEmpty then []
    else if c.cons.any is_control_flow_stmt then []
    else
      match rest with
      | next :: _ =>
        [⟨next.span, "noFallthrough", "Expected break statement before case"⟩]
      | [] => []

end NoFallthrough

namespace NoUnreachable

/-- `no_unreachable.rs`'s `is_control_flow_stmt`. -/
def is_control_flow_stmt : LintStmt → Bool
  | .ret _ | .brk _ | .cont _ | .throwStmt _ => true
  | _ => false

/-- Is the statement a `Stmt::Decl`? (the `if let Decl(_) = stmt`
test in `visit_block_stmt`). -/
def isDeclStmt : LintStmt → Bool
  | .decl _ => true
  | _ => false

/-- `NoUnreachableVisitor::add_diagnostic`. -/
def add_diagnostic (span : Nat) : Diagnostic :=
  ⟨span, "noUnreachable", "Unreachable code"⟩

/-- `NoUnreachableVisitor::get_unreachable_code`: find the index of the
first control-flow statement; the returned tail is
`stmts.split_at(idx).1.split_at(1).1`, i.e. everything after that
statement; with no control-flow statement the result is empty. -/
def get_unreachable_code (stmts : List LintStmt) : List LintStmt :=
  match List.findIdx? is_control_flow_stmt stmts with
  | some idx => (stmts.drop idx).drop 1
  | none => []

/-- `NoUnreachableVisitor::visit_block_stmt` on `block_stmt.stmts`:
one diagnostic per unreachable statement, skipping declarations
(function/variable hoisting). -/
def visit_block_stmt (stmts : List LintStmt) : List Diagnostic :=
  (get_unreachable_code stmts).filterMap fun s =>
    if isDeclStmt s then none else some (add_diagnostic s.span)

end NoUnreachable

/-!
The traversal engine.  The rules delegate traversal to the external
`swc_ecma_visit::Visit` machinery, which the spec describes (§4.1) as a
generic depth-first pre-order walk dispatching per node kind, descending
into children by default.  Modelled from the spec: `visitStmt` applies a
per-node hook at every statement node (pre-order) and recurses into every
child statement list.  Note that the hook is called on a `Block` *node*;
a module's top-level statement list is a list of items, not a `Block`
node, so no `Block` hook fires for it.
-/

mutual
/-- Pre-order visit of one statement: the hook's diagnostics, then the
children's. -/
def visitStmt (check : LintStmt → List Diagnostic) (s : LintStmt) :
    List Diagnostic :=
  check s ++ visitSub check s

/-- Diagnostics from the child statements of one statement. -/
def visitSub (check : LintStmt → List Diagnostic) : LintStmt → List Diagnostic
  | .ifStmt _ _ c none => visitStmt check c
  | .ifStmt _ _ c (some a) => visitStmt check c ++ visitStmt check a
  | .whileStmt _ _ b => visitStmt check b
  | .doWhile _ b _ => visitStmt check b
  | .forStmt _ _ _ _ b => visitStmt check b
  | .block _ ss => visitStmts check ss
  | .switch _ cs => visitCases check cs
  | _ => []

/-- Visit a statement list in order. -/
def visitStmts (check : LintStmt → List Diagnostic) :
    List LintStmt → List Diagnostic
  | [] => []
  | s :: rest => visitStmt check s ++ visitStmts check rest

/-- Visit the consequent lists of a case list in order. -/
def visitCases (check : LintStmt → List Diagnostic) :
    List SwitchCase → List Diagnostic
  | [] => []
  | .mk _ _ cons :: rest => visitStmts check cons ++ visitCases check rest
end

namespace NoUnreachable

/-- The per-node hook of `NoUnreachableVisitor`: only `visit_block_stmt`
is overridden, so diagnostics arise only at `Block` nodes. -/
def check : LintStmt → List Diagnostic
  | .block _ ss => visit_block_stmt ss
  | _ => []

/-- `NoUnreachable::lint_module`: visit the module, whose body is its
top-level statement list.  The top-level list itself is not a `Block`
node, so only `Block` nodes reached while descending are scanned. -/
def lint_module (body : List LintStmt) : List Diagnostic :=
  visitStmts check body

end NoUnreachable

/-!  Helper definitions and lemmas shared by the claim theorems.  -/

/-- `n` layers of parenthesisation around an expression (paren spans are
immaterial to the checks). -/
def nestParens : Nat → LintExpr → LintExpr
  | 0, e => e
  | n + 1, e => LintExpr.paren n (nestParens n e)

theorem check_paren_expr_nest_assign (n sp s : Nat) :
    NoCondAssign.check_paren_expr sp (nestParens n (LintExpr.assign s)) =
      [NoCondAssign.add_diagnostic s] := by
  induction n generalizing sp with
  | zero => rfl
  | succ k ih => simpa [nestParens, NoCondAssign.check_paren_expr] using ih k

theorem check_paren_expr_nest_other (n sp t : Nat) :
    NoCondAssign.check_paren_expr sp (nestParens n (LintExpr.other t)) = [] := by
  induction n generalizing sp with
  | zero => rfl
  | succ k ih => simpa [nestParens, NoCondAssign.check_paren_expr] using ih k

theorem findIdx?_eq_some_of_first {α : Type} (p : α → Bool) :
    ∀ (l : List α) (i : Nat) (h1 : i < l.length),
      p (l.get ⟨i, h1⟩) = true →
      (∀ j : Fin l.length, (j : Nat) < i → p (l.get j) = false) →
      List.findIdx? p l = some i
  | [], i, h1, _, _ => absurd h1 (by simp)
  | a :: t, 0, _, h2, _ => by
      simp only [List.get] at h2
      simp [List.findIdx?_cons, h2]
  | a :: t, k + 1, h1, h2, h3 => by
      have ha : p a = false := h3 ⟨0, by simp⟩ (Nat.succ_pos k)
      have h1' : k < t.length := Nat.lt_of_succ_lt_succ (by simpa using h1)
      have h2' : p (t.get ⟨k, h1'⟩) = true := by simpa using h2
      have h3' : ∀ j : Fin t.length, (j : Nat) < k → p (t.get j) = false := by
        intro j hj
        have := h3 ⟨(j : Nat) + 1, by simp⟩
          (Nat.succ_lt_succ hj)
        simpa using this
      have ih := findIdx?_eq_some_of_first p t k h1' h2' h3'
      simp [List.findIdx?_cons, ha, ih]

theorem findIdx?_eq_none_of_all {α : Type} (p : α → Bool) (l : List α)
    (h : ∀ x ∈ l, p x = false) : List.findIdx? p l = none := by
  induction l with
  | nil => rfl
  | cons a t ih =>
      have ha : p a = false := h a (by simp)
      simp [List.findIdx?_cons, ha, ih fun x hx => h x (by simp [hx])]

theorem filterMap_unreach_diag (l : List LintStmt) :
    (l.filterMap fun s =>
        if NoUnreachable.isDeclStmt s then none
        else some (NoUnreachable.add_diagnostic s.span)) =
      (l.filter fun s => !NoUnreachable.isDeclStmt s).map
        fun s => NoUnreachable.add_diagnostic s.span := by
  induction l with
  | nil => rfl
  | cons a t ih =>
      by_cases h : NoUnreachable.isDeclStmt a <;>
        simp [List.filterMap_cons, List.filter_cons, h, ih]

/-!  Claim theorems.  -/

/-- Claim C4: for every `If`, `While` or `DoWhile` statement whose test
expression is a bare assignment (no enclosing parentheses), the visitor
records exactly one diagnostic, and it is the `noCondAssign` diagnostic
located at the assignment expression's own span. -/
theorem noCondAssign_bare_assignment_flagged (sp s : Nat) (c body : LintStmt)
    (alt : Option LintStmt) :
    NoCondAssign.visit_stmt (.ifStmt sp (.assign s) c alt) =
      [NoCondAssign.add_diagnostic s] ∧
    NoCondAssign.visit_stmt (.whileStmt sp (.assign s) body) =
      [NoCondAssign.add_diagnostic s] ∧
    NoCondAssign.visit_stmt (.doWhile sp body (.assign s)) =
      [NoCondAssign.add_diagnostic s] ∧
    NoCondAssign.add_diagnostic s =
      ⟨s, "noCondAssign",
        "Expected a conditional expression and instead saw an assignment"⟩ :=
  ⟨rfl, rfl, rfl, rfl⟩

/-- Claim C2 counter-evidence: on `if ((x = y)) {}` — an `If` whose test
is an assignment wrapped in one layer of parentheses — the code records a
`noCondAssign` diagnostic at the assignment's span (`check_paren_expr`
flags an assignment found directly inside the parentheses), whereas the
claim, the spec (P2) and the repository's own test
`it_passes_with_bracketed_assignment` require zero diagnostics. -/
theorem noCondAssign_paren_assignment_still_flagged :
    NoCondAssign.visit_stmt
        (.ifStmt 0 (.paren 4 (.assign 5)) (.block 10 []) none) =
      [NoCondAssign.add_diagnostic 5] := rfl

/-- Claim C9: the conditional-assignment check on a `For` statement reads
only the test clause — its output is unchanged under any replacement of
the init clause, update clause or body — a bare assignment in the test
clause yields exactly the `noCondAssign` diagnostic at the assignment's
span, and a `For` with no test clause yields nothing, whatever
assignments its init or update clauses contain. -/
theorem noCondAssign_for_only_test_clause (sp s : Nat)
    (i1 i2 : Option ForInit) (test : Option LintExpr)
    (u1 u2 : Option LintExpr) (b1 b2 : LintStmt) :
    NoCondAssign.visit_stmt (.forStmt sp i1 test u1 b1) =
      NoCondAssign.visit_stmt (.forStmt sp i2 test u2 b2) ∧
    NoCondAssign.visit_stmt (.forStmt sp i1 (some (.assign s)) u1 b1) =
      [NoCondAssign.add_diagnostic s] ∧
    NoCondAssign.visit_stmt (.forStmt sp i1 none u1 b1) = [] := by
  refine ⟨?_, rfl, rfl⟩
  cases test <;> rfl

/-- Claim C6: the switch-fallthrough check records at most one
`noFallthrough` diagnostic per `switch`, and its output depends only on
the first two cases of the case list — only the first case is ever
examined as a potential fallthrough source. -/
theorem noFallthrough_at_most_one (cases : List SwitchCase) :
    (NoFallthrough.visit_switch_stmt cases).length ≤ 1 ∧
    NoFallthrough.visit_switch_stmt cases =
      NoFallthrough.visit_switch_stmt (cases.take 2) := by
  match cases with
  | [] => exact ⟨by simp [NoFallthrough.visit_switch_stmt], rfl⟩
  | [c] =>
    refine ⟨?_, rfl⟩
    simp only [NoFallthrough.visit_switch_stmt]
    split
    · simp
    · simp
  | c :: c2 :: rest =>
    refine ⟨?_, rfl⟩
    simp only [NoFallthrough.visit_switch_stmt]
    split
    · simp
    · split <;> simp

/-- Claim C7: every `noFallthrough` diagnostic a switch produces comes
from the first case falling into the second: the case list starts with
`c1 :: c2 :: _`, the diagnostic sits at `c2`'s span, and `c1` has a
non-empty body with no top-level terminator.  Hence a case with an empty
body is never flagged as a fallthrough source at any position, and the
last case of a switch is never flagged as one (a source always has a
following case). -/
theorem noFallthrough_empty_and_last_exempt (cases : List SwitchCase)
    (d : Diagnostic) (h : d ∈ NoFallthrough.visit_switch_stmt cases) :
    ∃ c1 c2 rest, cases = c1 :: c2 :: rest ∧
      d = ⟨c2.span, "noFallthrough", "Expected break statement before case"⟩ ∧
      c1.cons ≠ [] ∧
      c1.cons.any NoFallthrough.is_control_flow_stmt = false := by
  match cases with
  | [] => simp [NoFallthrough.visit_switch_stmt] at h
  | [c] =>
    rw [NoFallthrough.visit_switch_stmt] at h
    revert h
    split
    · simp
    · split <;> simp
  | c1 :: c2 :: rest =>
    rw [NoFallthrough.visit_switch_stmt] at h
    by_cases h1 : c1.cons.isEmpty
    · rw [if_pos h1] at h
      exact absurd h (List.not_mem_nil d)
    · rw [if_neg h1] at h
      by_cases h2 : c1.cons.any NoFallthrough.is_control_flow_stmt
      · rw [if_pos h2] at h
        exact absurd h (List.not_mem_nil d)
      · rw [if_neg h2] at h
        refine ⟨c1, c2, rest, rfl, List.mem_singleton.mp h, ?_, ?_⟩
        · intro hnil
          exact h1 (by simp [hnil])
        · simpa using h2

/-- Claim C7 witness: in a two-case switch whose first case holds one
non-terminator statement, the produced diagnostic is the one the theorem
describes. -/
theorem noFallthrough_empty_and_last_exempt_witness :
    ∃ c1 c2 rest,
      ([SwitchCase.mk 0 none [LintStmt.other 1], SwitchCase.mk 5 none []] :
          List SwitchCase) = c1 :: c2 :: rest ∧
      (⟨5, "noFallthrough", "Expected break statement before case"⟩ :
          Diagnostic) =
        ⟨c2.span, "noFallthrough", "Expected break statement before case"⟩ ∧
      c1.cons ≠ [] ∧
      c1.cons.any NoFallthrough.is_control_flow_stmt = false :=
  noFallthrough_empty_and_last_exempt _ _ (by decide)

/-- Claim C1 counter-evidence: in a three-case switch whose first case
ends in `return` and whose second case holds one non-terminator statement,
the claim requires a `noFallthrough` diagnostic at the third case's span
(case 2 is non-empty and lacks a terminator), but the code produces no
diagnostic at all: `for case in &iter.next()` iterates an `Option`, so
only the first case is ever examined. -/
theorem noFallthrough_second_pair_unchecked :
    NoFallthrough.visit_switch_stmt
        [SwitchCase.mk 1 none [LintStmt.ret 2],
         SwitchCase.mk 3 none [LintStmt.exprStmt 4 (LintExpr.other 5)],
         SwitchCase.mk 6 none []] = [] := by decide

/-- Claim C5: in a statement list whose first terminator (`Return`,
`Break`, `Continue` or `Throw`) sits at index `i`, the block scan emits
exactly one `noUnreachable` diagnostic, at the statement's span, for each
non-declaration statement past index `i` — in list order, one per
occurrence — and none for declaration statements past index `i`.
Statements between the first terminator and any later terminator lie past
index `i` and are covered by the same map. -/
theorem noUnreachable_after_first_terminator (stmts : List LintStmt)
    (i : Nat) (h1 : i < stmts.length)
    (h2 : NoUnreachable.is_control_flow_stmt (stmts.get ⟨i, h1⟩) = true)
    (h3 : ∀ j : Fin stmts.length, (j : Nat) < i →
      NoUnreachable.is_control_flow_stmt (stmts.get j) = false) :
    NoUnreachable.visit_block_stmt stmts =
      ((stmts.drop (i + 1)).filter fun s => !NoUnreachable.isDeclStmt s).map
        fun s => NoUnreachable.add_diagnostic s.span := by
  have hf := findIdx?_eq_some_of_first NoUnreachable.is_control_flow_stmt
    stmts i h1 h2 h3
  have hg : NoUnreachable.get_unreachable_code stmts = stmts.drop (i + 1) := by
    unfold NoUnreachable.get_unreachable_code
    rw [hf]
    show (stmts.drop i).drop 1 = stmts.drop (i + 1)
    rw [List.drop_drop, Nat.add_comm]
  unfold NoUnreachable.visit_block_stmt
  rw [hg]
  exact filterMap_unreach_diag _

/-- Claim C5 witness: in `[return; expression; declaration; break]` the
first terminator is at index 0; the scan flags the expression statement
and the later `break`, and skips the declaration. -/
theorem noUnreachable_after_first_terminator_witness :
    NoUnreachable.visit_block_stmt
        [LintStmt.ret 0, LintStmt.exprStmt 1 (LintExpr.other 9),
         LintStmt.decl 2, LintStmt.brk 3] =
      ((([LintStmt.ret 0, LintStmt.exprStmt 1 (LintExpr.other 9),
          LintStmt.decl 2, LintStmt.brk 3] : List LintStmt).drop
            (0 + 1)).filter fun s => !NoUnreachable.isDeclStmt s).map
        fun s => NoUnreachable.add_diagnostic s.span :=
  noUnreachable_after_first_terminator _ 0 (by decide) (by decide)
    (by decide)

/-- Claim C10: a statement list containing no terminator at its top level
yields zero `noUnreachable` diagnostics from the block scan. -/
theorem noUnreachable_no_terminator_no_diagnostic (stmts : List LintStmt)
    (h : ∀ s ∈ stmts, NoUnreachable.is_control_flow_stmt s = false) :
    NoUnreachable.visit_block_stmt stmts = [] := by
  have hg : NoUnreachable.get_unreachable_code stmts = [] := by
    unfold NoUnreachable.get_unreachable_code
    rw [findIdx?_eq_none_of_all NoUnreachable.is_control_flow_stmt stmts h]
  unfold NoUnreachable.visit_block_stmt
  rw [hg]
  rfl

/-- Claim C10 witness: a concrete terminator-free block statement list
yields no diagnostic. -/
theorem noUnreachable_no_terminator_no_diagnostic_witness :
    NoUnreachable.visit_block_stmt
        [LintStmt.decl 0, LintStmt.exprStmt 1 (LintExpr.other 2),
         LintStmt.other 3] = [] :=
  noUnreachable_no_terminator_no_diagnostic _ (by decide)

/-- Claim C3 counter-evidence: for a module whose top-level statements
are `throw ...; console.log(...)`, the claim (and the repository's own
test `it_fails_when_there_is_unreachable_code_after_a_throw`) requires a
`noUnreachable` diagnostic for the statement after the `throw`, but
`lint_module` produces none: the only visitor hook is
`visit_block_stmt`, the traversal fires it only at `Block` nodes, and a
module's top-level statement list is not a `Block` node.  The same two
statements inside a block are flagged. -/
theorem noUnreachable_module_top_level_not_scanned :
    NoUnreachable.lint_module
        [LintStmt.throwStmt 1, LintStmt.exprStmt 2 (LintExpr.other 3)] =
      [] ∧
    NoUnreachable.visit_block_stmt
        [LintStmt.throwStmt 1, LintStmt.exprStmt 2 (LintExpr.other 3)] =
      [NoUnreachable.add_diagnostic 2] := by
  constructor
  · simp [NoUnreachable.lint_module, visitStmts, visitStmt, visitSub,
      NoUnreachable.check]
  · decide

/-- Claim C8: the checks are total functions of the tree, given here by
computation laws valid for every input: a statement or expression shape
no check pattern-matches produces no diagnostic, and the recursive
parenthesis unwrapping of the conditional-assignment check terminates at
every finite nesting depth `n` with a fixed result (the assignment
diagnostic over an assignment core, nothing over any other core).
Totality itself holds by construction: every definition in this
development is structurally recursive, hence defined on all finite
trees. -/
theorem lint_checks_total (sp n s t : Nat) :
    NoCondAssign.visit_stmt (LintStmt.other sp) = [] ∧
    NoCondAssign.visit_stmt (LintStmt.exprStmt sp (LintExpr.other t)) = [] ∧
    NoCondAssign.check_test_expr (LintExpr.other sp) = [] ∧
    NoUnreachable.check (LintStmt.other sp) = [] ∧
    NoFallthrough.visit_switch_stmt [] = [] ∧
    NoCondAssign.check_test_expr (nestParens n (LintExpr.assign s)) =
      [NoCondAssign.add_diagnostic s] ∧
    NoCondAssign.check_test_expr (nestParens n (LintExpr.other t)) = [] := by
  refine ⟨rfl, rfl, rfl, rfl, rfl, ?_, ?_⟩
  · cases n with
    | zero => rfl
    | succ k =>
        simpa [nestParens, NoCondAssign.check_test_expr] using
          check_paren_expr_nest_assign k k s
  · cases n with
    | zero => rfl
    | succ k =>
        simpa [nestParens, NoCondAssign.check_test_expr] using
          check_paren_expr_nest_other k k t
